import Mathlib

/-
Shallow embedding of src/offlineStorage.ts (EatFit offline storage layer).

The source is a small IndexedDB utility with one record type (FoodEntry) and
three operations:
  * saveFoodEntry  — insert a record, generating a local id when absent and
                     forcing synced = false (lines 43-88);
  * getFoodEntries — read all records of a user, optionally filtered to a
                     half-open date range (lines 91-127);
  * syncWithServer — push every unsynced record to the server, marking each
                     accepted record synced = true (lines 130-179).

Modelling conventions:
  * The IndexedDB object store is a `List FoodEntry`; `store.add` fails when
    the key (`id`) is already present (IndexedDB keyPath uniqueness), and
    `store.put` replaces the record with the same `id` (or inserts it).
    The `synced = false` secondary-index scan is the filter on `synced`.
  * JavaScript string truthiness: `!entry.id` is true exactly for the empty
    string (and for an absent field), so an absent id is modelled as `""`.
  * `Date.now()` is a natural number of milliseconds (`now`); the random
    suffix `Math.random().toString(36).substr(2, 9)` is modelled by the list
    of base-36 fraction digits of the random number (`frac`), of which the
    first 9 are rendered (`substr(2, 9)` drops the leading "0.").
  * Dates compare by their epoch-millisecond value, modelled as `Int`.
  * Asynchronous control flow is sequentialized; a promise rejection that
    reaches the caller is `Except.error`.
-/

namespace EatFit

/-- The FoodEntry record (source lines 3-13).  `id = ""` models an absent id;
numeric payload fields are opaque to the storage layer. -/
structure FoodEntry where
  id : String
  name : String
  calories : Int
  protein : Int
  carbs : Int
  fat : Int
  date : Int
  userId : String
  synced : Bool
deriving DecidableEq, Repr

/-- One base-36 digit character, as produced by `Number.toString(36)`:
`0`-`9` then `a`-`z`. -/
def base36Char (d : Nat) : Char :=
  if d < 10 then Char.ofNat (48 + d) else Char.ofNat (87 + d)

/-- `Math.random().toString(36).substr(2, 9)`: the first nine base-36
fraction digits of the random number (source line 52). -/
def randomSuffix (frac : List Nat) : String :=
  ⟨(frac.take 9).map base36Char⟩

/-- Decimal rendering of `Date.now()` (JavaScript template-literal number to
string conversion), as the standard decimal digit expansion. -/
def natDigits (n : Nat) : String :=
  ⟨Nat.toDigits 10 n⟩

/-- The locally generated id `local_${Date.now()}_${Math.random().toString(36).substr(2, 9)}`
(source line 52). -/
def generatedId (now : Nat) (frac : List Nat) : String :=
  "local_" ++ natDigits now ++ "_" ++ randomSuffix frac

/-- Result of `saveFoodEntry`: the caller's entry object after the in-place
mutations of lines 51-56 (the source mutates its argument), together with the
outcome of the add request — the resolved id and the new store contents, or
the rejection string of line 77. -/
structure SaveResult where
  entryAfter : FoodEntry
  outcome : Except String (String × List FoodEntry)
deriving Repr

/-- The in-place mutations `saveFoodEntry` performs on the caller's entry
before submitting the add request: generate an id when the caller's id is
falsy (lines 51-53), then force `synced = false` (line 56). -/
def mutatedEntry (now : Nat) (frac : List Nat) (entry : FoodEntry) : FoodEntry :=
  let e1 := if entry.id = "" then { entry with id := generatedId now frac } else entry
  { e1 with synced := false }

/-- `saveFoodEntry` (source lines 43-88): mutate the caller's entry (lines
51-56), then `store.add` (line 58), which rejects when the key already
exists; on success the promise resolves with the entry's id. -/
def saveFoodEntry (now : Nat) (frac : List Nat) (entry : FoodEntry)
    (store : List FoodEntry) : SaveResult :=
  let e2 := mutatedEntry now frac entry
  if store.any (fun x => x.id == e2.id) then
    { entryAfter := e2, outcome := .error "Error saving food entry to IndexedDB" }
  else
    { entryAfter := e2, outcome := .ok (e2.id, store ++ [e2]) }

/-- `getFoodEntries` success path (source lines 97-112): fetch all entries of
`userId` via the index, then filter to the half-open date range only when
both bounds are present (`if (dayStart && dayEnd)`; Date objects are always
truthy, so only presence matters). -/
def getFoodEntries (store : List FoodEntry) (userId : String)
    (dayStart dayEnd : Option Int) : List FoodEntry :=
  let entries := store.filter (fun e => e.userId == userId)
  match dayStart, dayEnd with
  | some s, some t => entries.filter (fun e => decide (s ≤ e.date) && decide (e.date < t))
  | _, _ => entries

/-- The failure modes of the read path of `getFoodEntries`. -/
inductive ReadFailure where
  /-- `openDatabase` rejects (store unavailable). -/
  | openFail
  /-- the `getAll` request errors (`request.onerror`, line 115). -/
  | requestFail
  /-- no failure. -/
  | noFail
deriving DecidableEq, Repr

/-- `getFoodEntries` with its failure behaviour (source lines 91-127).
An `openDatabase` rejection is thrown at the `await` on line 93, inside the
`try`, so the `catch` swallows it and returns `[]` (line 125).  A `getAll`
request error instead rejects the promise built on line 94; that promise is
returned from the `try` block WITHOUT being awaited, so its later rejection
bypasses the `catch` and reaches the caller of `getFoodEntries`. -/
def getFoodEntriesRun (store : List FoodEntry) (userId : String)
    (dayStart dayEnd : Option Int) (fail : ReadFailure) :
    Except String (List FoodEntry) :=
  match fail with
  | .openFail => .ok []
  | .requestFail => .error "Error retrieving food entries from IndexedDB"
  | .noFail => .ok (getFoodEntries store userId dayStart dayEnd)

/-- Outcome of one `fetch` push of a record (source lines 155-161): a
response with `ok = true`, a response with `ok = false`, or a thrown network
error. -/
inductive PushResult where
  | ok
  | notOk
  | netError
deriving DecidableEq, Repr

/-- `entry.synced = true` (source line 167). -/
def bumpSynced (e : FoodEntry) : FoodEntry :=
  { e with synced := true }

/-- IndexedDB `put` on a store keyed by `id`: replace the record with the
same key, or insert when no record has that key (source line 168). -/
def putEntry (store : List FoodEntry) (e : FoodEntry) : List FoodEntry :=
  if store.any (fun x => x.id == e.id) then
    store.map (fun x => if x.id = e.id then e else x)
  else store ++ [e]

/-- One iteration of the sync loop (source lines 152-173) acting on the pair
(current store contents, list of entries pushed over the network so far):
the fetch is attempted for every entry; only an `ok` response writes
`synced = true` back via `put`; a non-ok response or a thrown network error
leaves the store untouched and the loop continues. -/
def syncStep (push : FoodEntry → PushResult)
    (acc : List FoodEntry × List FoodEntry) (entry : FoodEntry) :
    List FoodEntry × List FoodEntry :=
  let pushed := acc.2 ++ [entry]
  match push entry with
  | .ok => (putEntry acc.1 (bumpSynced entry), pushed)
  | .notOk => (acc.1, pushed)
  | .netError => (acc.1, pushed)

/-- The unsynced set: the snapshot returned by `syncIndex.getAll(false)`
(source lines 139-149). -/
def unsyncedOf (store : List FoodEntry) : List FoodEntry :=
  store.filter (fun e => !e.synced)

/-- `syncWithServer` (source lines 130-179): return immediately when offline
(line 131); otherwise scan the unsynced snapshot and push each entry in
order.  Returns the final store contents together with the list of entries
for which a network call was made.  Every failure inside the loop and around
it is caught (lines 170-172 and 176-178), and the inner promise of line 139
is awaited inside the `try`, so `syncWithServer` never rejects to its
caller; accordingly the model is a total function. -/
def syncWithServer (online : Bool) (push : FoodEntry → PushResult)
    (store : List FoodEntry) : List FoodEntry × List FoodEntry :=
  if !online then (store, [])
  else (unsyncedOf store).foldl (syncStep push) (store, [])

/-- The keys of the store, in order. -/
def storeIds (store : List FoodEntry) : List String :=
  store.map (fun e => e.id)

/-- The shape `local_<digits>_<alnum>`: the literal prefix `local_`, a
nonempty run of decimal digits, an underscore, then alphanumeric
characters. -/
def isLocalIdFormat (s : String) : Prop :=
  ∃ ds suf : List Char,
    s.data = "local_".data ++ ds ++ '_' :: suf ∧
    ds ≠ [] ∧ (∀ c ∈ ds, c.isDigit = true) ∧ (∀ c ∈ suf, c.isAlphanum = true)

theorem bumpSynced_id (e : FoodEntry) : (bumpSynced e).id = e.id := rfl

theorem mem_unsyncedOf {store : List FoodEntry} {e : FoodEntry} :
    e ∈ unsyncedOf store ↔ e ∈ store ∧ e.synced = false := by
  simp [unsyncedOf, List.mem_filter]

theorem putEntry_self (store : List FoodEntry) (e : FoodEntry) :
    e ∈ putEntry store e := by
  unfold putEntry
  split
  · rename_i h
    rw [List.any_eq_true] at h
    obtain ⟨x, hx, hid⟩ := h
    rw [beq_iff_eq] at hid
    exact List.mem_map.2 ⟨x, hx, by simp [hid]⟩
  · exact List.mem_append_right _ (List.mem_singleton.2 rfl)

theorem putEntry_preserve {store : List FoodEntry} {x : FoodEntry} (e : FoodEntry)
    (hx : x ∈ store) (hne : x.id ≠ e.id) : x ∈ putEntry store e := by
  unfold putEntry
  split
  · exact List.mem_map.2 ⟨x, hx, by simp [hne]⟩
  · exact List.mem_append_left _ hx

theorem putEntry_cases {store : List FoodEntry} {e y : FoodEntry}
    (hy : y ∈ putEntry store e) : y = e ∨ y ∈ store := by
  unfold putEntry at hy
  split at hy
  · obtain ⟨x, hx, hfx⟩ := List.mem_map.1 hy
    by_cases hid : x.id = e.id
    · simp [hid] at hfx
      exact Or.inl hfx.symm
    · simp [hid] at hfx
      exact Or.inr (hfx ▸ hx)
  · rcases List.mem_append.1 hy with h | h
    · exact Or.inr h
    · exact Or.inl (List.mem_singleton.1 h)

theorem putEntry_ids {store : List FoodEntry} {e : FoodEntry}
    (h : e.id ∈ storeIds store) : storeIds (putEntry store e) = storeIds store := by
  unfold putEntry
  have hany : store.any (fun x => x.id == e.id) = true := by
    rw [List.any_eq_true]
    obtain ⟨x, hx, hid⟩ := List.mem_map.1 h
    exact ⟨x, hx, beq_iff_eq.2 hid⟩
  rw [if_pos hany]
  unfold storeIds
  rw [List.map_map]
  apply List.map_congr_left
  intro x _
  by_cases hid : x.id = e.id <;> simp [hid]

theorem sync_foldl_snd (push : FoodEntry → PushResult) (L : List FoodEntry) :
    ∀ st p, (L.foldl (syncStep push) (st, p)).2 = p ++ L := by
  induction L with
  | nil => intro st p; simp
  | cons a L ih =>
    intro st p
    rw [List.foldl_cons]
    have hstep : syncStep push (st, p) a =
        ((syncStep push (st, p) a).1, p ++ [a]) := by
      unfold syncStep
      cases push a <;> rfl
    rw [hstep, ih]
    simp

theorem sync_foldl_preserve (push : FoodEntry → PushResult) (L : List FoodEntry) :
    ∀ st p x, x ∈ st → (∀ e ∈ L, e.id = x.id → push e ≠ .ok) →
      x ∈ (L.foldl (syncStep push) (st, p)).1 := by
  induction L with
  | nil => intro st p x hx _; simpa using hx
  | cons a L ih =>
    intro st p x hx h
    rw [List.foldl_cons]
    unfold syncStep
    cases hpa : push a with
    | ok =>
      have hne : ¬a.id = x.id := fun hid => h a (List.mem_cons_self a L) hid hpa
      refine ih _ _ x (putEntry_preserve (bumpSynced a) hx ?_)
        (fun e he => h e (List.mem_cons_of_mem a he))
      rw [bumpSynced_id]
      exact fun hid => hne hid.symm
    | notOk => exact ih _ _ x hx (fun e he => h e (List.mem_cons_of_mem a he))
    | netError => exact ih _ _ x hx (fun e he => h e (List.mem_cons_of_mem a he))

theorem sync_foldl_bump (push : FoodEntry → PushResult) (L : List FoodEntry) :
    ∀ st p e, e ∈ L → push e = .ok → (L.map (fun x => x.id)).Nodup →
      bumpSynced e ∈ (L.foldl (syncStep push) (st, p)).1 := by
  induction L with
  | nil => intro st p e he; cases he
  | cons a L ih =>
    intro st p e he hok hnd
    rw [List.map_cons, List.nodup_cons] at hnd
    have h1 : ∀ x ∈ L, ¬x.id = a.id := by simpa using hnd.1
    rw [List.foldl_cons]
    unfold syncStep
    rcases List.mem_cons.1 he with rfl | heL
    · rw [hok]
      refine sync_foldl_preserve push L _ _ _ (putEntry_self st (bumpSynced e)) ?_
      intro f hf hid
      rw [bumpSynced_id] at hid
      exact absurd hid (h1 f hf)
    · cases push a <;> exact ih _ _ e heL hok hnd.2

theorem sync_foldl_cases (push : FoodEntry → PushResult) (L : List FoodEntry) :
    ∀ st p y, y ∈ (L.foldl (syncStep push) (st, p)).1 →
      y ∈ st ∨ ∃ e ∈ L, push e = .ok ∧ y = bumpSynced e := by
  induction L with
  | nil => intro st p y hy; exact Or.inl (by simpa using hy)
  | cons a L ih =>
    intro st p y hy
    rw [List.foldl_cons] at hy
    unfold syncStep at hy
    cases hpa : push a with
    | ok =>
      rw [hpa] at hy
      rcases ih _ _ y hy with h | ⟨e, heL, hoke, hye⟩
      · rcases putEntry_cases h with h | h
        · exact Or.inr ⟨a, List.mem_cons_self a L, hpa, h⟩
        · exact Or.inl h
      · exact Or.inr ⟨e, List.mem_cons_of_mem a heL, hoke, hye⟩
    | notOk =>
      rw [hpa] at hy
      rcases ih _ _ y hy with h | ⟨e, heL, hoke, hye⟩
      · exact Or.inl h
      · exact Or.inr ⟨e, List.mem_cons_of_mem a heL, hoke, hye⟩
    | netError =>
      rw [hpa] at hy
      rcases ih _ _ y hy with h | ⟨e, heL, hoke, hye⟩
      · exact Or.inl h
      · exact Or.inr ⟨e, List.mem_cons_of_mem a heL, hoke, hye⟩

theorem sync_foldl_ids (push : FoodEntry → PushResult) (L : List FoodEntry) :
    ∀ st p, (∀ e ∈ L, e.id ∈ storeIds st) →
      storeIds (L.foldl (syncStep push) (st, p)).1 = storeIds st := by
  induction L with
  | nil => intro st p _; rfl
  | cons a L ih =>
    intro st p h
    rw [List.foldl_cons]
    unfold syncStep
    cases push a with
    | ok =>
      have hids : storeIds (putEntry st (bumpSynced a)) = storeIds st :=
        putEntry_ids (by rw [bumpSynced_id]; exact h a (List.mem_cons_self a L))
      have h2 : ∀ e ∈ L, e.id ∈ storeIds (putEntry st (bumpSynced a)) := by
        intro e he
        rw [hids]
        exact h e (List.mem_cons_of_mem a he)
      exact (ih _ _ h2).trans hids
    | notOk => exact ih _ _ (fun e he => h e (List.mem_cons_of_mem a he))
    | netError => exact ih _ _ (fun e he => h e (List.mem_cons_of_mem a he))

theorem unsyncedOf_ids_nodup {store : List FoodEntry}
    (h : (storeIds store).Nodup) :
    ((unsyncedOf store).map (fun x => x.id)).Nodup := by
  unfold storeIds at h
  exact ((List.filter_sublist store).map (fun x => x.id)).nodup h

theorem nodup_id_inj {store : List FoodEntry} (hnd : (storeIds store).Nodup)
    {e f : FoodEntry} (he : e ∈ store) (hf : f ∈ store) (hid : e.id = f.id) :
    e = f := by
  unfold storeIds at hnd
  exact List.inj_on_of_nodup_map hnd he hf hid

theorem saveFoodEntry_entryAfter (now : Nat) (frac : List Nat)
    (entry : FoodEntry) (store : List FoodEntry) :
    (saveFoodEntry now frac entry store).entryAfter = mutatedEntry now frac entry := by
  unfold saveFoodEntry
  dsimp only
  split <;> rfl

theorem saveFoodEntry_ok {now : Nat} {frac : List Nat} {entry : FoodEntry}
    {store : List FoodEntry} {i : String} {st' : List FoodEntry}
    (h : (saveFoodEntry now frac entry store).outcome = .ok (i, st')) :
    i = (mutatedEntry now frac entry).id ∧
    st' = store ++ [mutatedEntry now frac entry] := by
  unfold saveFoodEntry at h
  dsimp only at h
  split at h
  · exact nomatch h
  · simp only [Except.ok.injEq, Prod.mk.injEq] at h
    exact ⟨h.1.symm, h.2.symm⟩

theorem mutatedEntry_synced (now : Nat) (frac : List Nat) (entry : FoodEntry) :
    (mutatedEntry now frac entry).synced = false := by
  unfold mutatedEntry
  split <;> rfl

theorem mutatedEntry_of_no_id {now : Nat} {frac : List Nat} {entry : FoodEntry}
    (hid : entry.id = "") :
    mutatedEntry now frac entry = { entry with id := generatedId now frac, synced := false } := by
  unfold mutatedEntry
  rw [if_pos hid]

theorem digitChar_isDigit {k : Nat} (h : k < 10) :
    (Nat.digitChar k).isDigit = true := by
  have := (by decide : ∀ k : Nat, k < 10 → (Nat.digitChar k).isDigit = true)
  exact this k h

theorem base36Char_isAlphanum {d : Nat} (h : d < 36) :
    (base36Char d).isAlphanum = true := by
  have := (by decide : ∀ d : Nat, d < 36 → (base36Char d).isAlphanum = true)
  exact this d h

theorem toDigitsCore_digits : ∀ (fuel n : Nat) (acc : List Char),
    (∀ c ∈ acc, c.isDigit = true) →
    ∀ c ∈ Nat.toDigitsCore 10 fuel n acc, c.isDigit = true := by
  intro fuel
  induction fuel with
  | zero => intro n acc hacc c hc; exact hacc c hc
  | succ fuel ih =>
    intro n acc hacc c hc
    unfold Nat.toDigitsCore at hc
    dsimp only at hc
    split at hc
    · rcases List.mem_cons.1 hc with rfl | hc
      · exact digitChar_isDigit (Nat.mod_lt n (by omega))
      · exact hacc c hc
    · refine ih (n / 10) _ ?_ c hc
      intro d hd
      rcases List.mem_cons.1 hd with rfl | hd
      · exact digitChar_isDigit (Nat.mod_lt n (by omega))
      · exact hacc d hd

theorem toDigitsCore_ne_nil : ∀ (fuel n : Nat) (acc : List Char),
    acc ≠ [] → Nat.toDigitsCore 10 fuel n acc ≠ [] := by
  intro fuel
  induction fuel with
  | zero => intro n acc hacc; exact hacc
  | succ fuel ih =>
    intro n acc hacc
    unfold Nat.toDigitsCore
    dsimp only
    split
    · exact List.cons_ne_nil _ _
    · exact ih (n / 10) _ (List.cons_ne_nil _ _)

theorem toDigits_ne_nil (n : Nat) : Nat.toDigits 10 n ≠ [] := by
  unfold Nat.toDigits Nat.toDigitsCore
  dsimp only
  split
  · exact List.cons_ne_nil _ _
  · exact toDigitsCore_ne_nil n (n / 10) _ (List.cons_ne_nil _ _)

theorem generatedId_format {now : Nat} {frac : List Nat}
    (hfrac : ∀ d ∈ frac, d < 36) : isLocalIdFormat (generatedId now frac) := by
  refine ⟨Nat.toDigits 10 now, (frac.take 9).map base36Char, ?_, ?_, ?_, ?_⟩
  · show (("local_" ++ natDigits now) ++ "_" ++ randomSuffix frac).data = _
    simp only [String.data_append, natDigits, randomSuffix]
    simp [List.append_assoc]
  · exact toDigits_ne_nil now
  · exact toDigitsCore_digits (now + 1) now [] (by intro c hc; cases hc)
  · intro c hc
    obtain ⟨d, hd, rfl⟩ := List.mem_map.1 hc
    exact base36Char_isAlphanum (hfrac d (List.mem_of_mem_take hd))

/-- Sample records and push behaviours used to instantiate the theorems on
concrete inputs. -/
def sampleEntry : FoodEntry :=
  { id := "", name := "Apple", calories := 95, protein := 1, carbs := 25,
    fat := 1, date := 1000, userId := "u1", synced := true }

def entryA : FoodEntry :=
  { id := "a", name := "Tea", calories := 2, protein := 0, carbs := 0,
    fat := 0, date := 10, userId := "u1", synced := true }

def entryB : FoodEntry :=
  { id := "b", name := "Rice", calories := 200, protein := 4, carbs := 45,
    fat := 0, date := 20, userId := "u1", synced := false }

def entryC : FoodEntry :=
  { id := "c", name := "Egg", calories := 70, protein := 6, carbs := 0,
    fat := 5, date := 30, userId := "u2", synced := false }

def entryD : FoodEntry :=
  { id := "d", name := "Milk", calories := 120, protein := 8, carbs := 12,
    fat := 5, date := 40, userId := "u1", synced := false }

def pushAllOk : FoodEntry → PushResult := fun _ => PushResult.ok

def pushRejectC : FoodEntry → PushResult :=
  fun e => if e.id = "c" then PushResult.notOk else PushResult.ok

/-- C1: after `syncWithServer` runs online with the server accepting every
push, every record of the unsynced snapshot was pushed and ends stored as
itself with only `synced` flipped to `true`; the set of store keys is
unchanged. -/
theorem syncAll_success_marks_attempted (push : FoodEntry → PushResult)
    (store : List FoodEntry) (hok : ∀ e, push e = PushResult.ok)
    (hnd : (storeIds store).Nodup) :
    (∀ e ∈ store, e.synced = false →
      bumpSynced e ∈ (syncWithServer true push store).1) ∧
    (syncWithServer true push store).2 = unsyncedOf store ∧
    storeIds (syncWithServer true push store).1 = storeIds store := by
  have hsync : syncWithServer true push store
      = (unsyncedOf store).foldl (syncStep push) (store, []) := rfl
  rw [hsync]
  refine ⟨?_, ?_, ?_⟩
  · intro e he hu
    exact sync_foldl_bump push (unsyncedOf store) store [] e
      (mem_unsyncedOf.2 ⟨he, hu⟩) (hok e) (unsyncedOf_ids_nodup hnd)
  · rw [sync_foldl_snd]
    simp
  · refine sync_foldl_ids push (unsyncedOf store) store [] ?_
    intro e he
    exact List.mem_map_of_mem (fun x => x.id) (mem_unsyncedOf.1 he).1

/-- C1 witness: the theorem applied to a concrete two-record store. -/
theorem syncAll_success_marks_attempted_witness :
    ((∀ e : FoodEntry, pushAllOk e = PushResult.ok) ∧
      (storeIds [entryA, entryB]).Nodup) ∧
    ((∀ e ∈ [entryA, entryB], e.synced = false →
      bumpSynced e ∈ (syncWithServer true pushAllOk [entryA, entryB]).1) ∧
    (syncWithServer true pushAllOk [entryA, entryB]).2 = unsyncedOf [entryA, entryB] ∧
    storeIds (syncWithServer true pushAllOk [entryA, entryB]).1 =
      storeIds [entryA, entryB]) :=
  ⟨⟨fun _ => rfl, by decide⟩,
    syncAll_success_marks_attempted pushAllOk [entryA, entryB] (fun _ => rfl) (by decide)⟩

/-- C2: when one unsynced record's push fails and every other unsynced
record's push succeeds, the failed record is still stored unchanged (so
still `synced = false`), every other unsynced record ends stored with
`synced = true`, and the loop still attempted a push for the whole snapshot
(one failure never aborts the batch); `syncWithServer` is a total function,
reflecting that the source catches every failure internally. -/
theorem syncAll_one_failure_isolated (push : FoodEntry → PushResult)
    (store : List FoodEntry) (f : FoodEntry)
    (hnd : (storeIds store).Nodup) (hf : f ∈ store) (hfu : f.synced = false)
    (hffail : push f ≠ PushResult.ok)
    (hother : ∀ e ∈ store, e.synced = false → e.id ≠ f.id → push e = PushResult.ok) :
    f ∈ (syncWithServer true push store).1 ∧
    (∀ e ∈ store, e.synced = false → e.id ≠ f.id →
      bumpSynced e ∈ (syncWithServer true push store).1) ∧
    (syncWithServer true push store).2 = unsyncedOf store := by
  have hsync : syncWithServer true push store
      = (unsyncedOf store).foldl (syncStep push) (store, []) := rfl
  rw [hsync]
  refine ⟨?_, ?_, ?_⟩
  · refine sync_foldl_preserve push (unsyncedOf store) store [] f hf ?_
    intro e he hid
    have he' := mem_unsyncedOf.1 he
    rw [nodup_id_inj hnd he'.1 hf hid]
    exact hffail
  · intro e he hu hne
    exact sync_foldl_bump push (unsyncedOf store) store [] e
      (mem_unsyncedOf.2 ⟨he, hu⟩) (hother e he hu hne) (unsyncedOf_ids_nodup hnd)
  · rw [sync_foldl_snd]
    simp

/-- C2 witness: three unsynced records, the push of `entryC` rejected. -/
theorem syncAll_one_failure_isolated_witness :
    ((storeIds [entryB, entryC, entryD]).Nodup ∧ entryC ∈ [entryB, entryC, entryD] ∧
      entryC.synced = false ∧ pushRejectC entryC ≠ PushResult.ok ∧
      (∀ e ∈ [entryB, entryC, entryD], e.synced = false → e.id ≠ entryC.id →
        pushRejectC e = PushResult.ok)) ∧
    (entryC ∈ (syncWithServer true pushRejectC [entryB, entryC, entryD]).1 ∧
    (∀ e ∈ [entryB, entryC, entryD], e.synced = false → e.id ≠ entryC.id →
      bumpSynced e ∈ (syncWithServer true pushRejectC [entryB, entryC, entryD]).1) ∧
    (syncWithServer true pushRejectC [entryB, entryC, entryD]).2 =
      unsyncedOf [entryB, entryC, entryD]) :=
  ⟨⟨by decide, by decide, by decide, by decide, by decide⟩,
    syncAll_one_failure_isolated pushRejectC [entryB, entryC, entryD] entryC
      (by decide) (by decide) (by decide) (by decide) (by decide)⟩

/-- C3: whatever `synced` value the caller supplied, the caller's entry is
mutated to `synced = false` and the record appended to the store by a
successful add is that mutated entry, hence stored with `synced = false`. -/
theorem saveFoodEntry_forces_unsynced (now : Nat) (frac : List Nat)
    (entry : FoodEntry) (store : List FoodEntry) (i : String)
    (st' : List FoodEntry)
    (h : (saveFoodEntry now frac entry store).outcome = Except.ok (i, st')) :
    (saveFoodEntry now frac entry store).entryAfter.synced = false ∧
    st' = store ++ [(saveFoodEntry now frac entry store).entryAfter] ∧
    ∃ e, st' = store ++ [e] ∧ e.synced = false := by
  have h2 := saveFoodEntry_ok h
  rw [saveFoodEntry_entryAfter, h2.2]
  exact ⟨mutatedEntry_synced now frac entry, rfl,
    mutatedEntry now frac entry, rfl, mutatedEntry_synced now frac entry⟩

/-- C3 witness: a concrete insert whose caller supplied `synced = true`. -/
theorem saveFoodEntry_forces_unsynced_witness :
    (saveFoodEntry 5 [1, 2, 3] sampleEntry []).outcome =
      Except.ok ("local_5_123", [(saveFoodEntry 5 [1, 2, 3] sampleEntry []).entryAfter]) ∧
    sampleEntry.synced = true ∧
    ((saveFoodEntry 5 [1, 2, 3] sampleEntry []).entryAfter.synced = false ∧
    [(saveFoodEntry 5 [1, 2, 3] sampleEntry []).entryAfter] =
      [] ++ [(saveFoodEntry 5 [1, 2, 3] sampleEntry []).entryAfter] ∧
    ∃ e, [(saveFoodEntry 5 [1, 2, 3] sampleEntry []).entryAfter] = [] ++ [e] ∧
      e.synced = false) :=
  ⟨rfl, rfl, saveFoodEntry_forces_unsynced 5 [1, 2, 3] sampleEntry [] _ _ rfl⟩

/-- C4: with no range, `getFoodEntries` returns exactly the records of the
given user; with both bounds, exactly the user's records in the half-open
range `rangeStart ≤ date < rangeEnd`, so `date = rangeEnd` is excluded and
`date = rangeStart` is included. -/
theorem getFoodEntries_owner_and_range (store : List FoodEntry)
    (uid : String) (s t : Int) :
    (∀ x, x ∈ getFoodEntries store uid none none ↔ x ∈ store ∧ x.userId = uid) ∧
    (∀ x, x ∈ getFoodEntries store uid (some s) (some t) ↔
      x ∈ store ∧ x.userId = uid ∧ s ≤ x.date ∧ x.date < t) := by
  constructor <;> intro x <;>
    simp [getFoodEntries, List.mem_filter, and_assoc] <;>
    tauto

/-- C5: at the failing input — a `getAll` request error — the read path
rejects to the caller instead of returning `[]`: the promise built on line
94 is returned from the `try` block without being awaited, so its rejection
bypasses the `catch`; only an `openDatabase` failure is swallowed into
`[]`. -/
theorem getFoodEntries_request_error_raises :
    getFoodEntriesRun [] "u1" none none ReadFailure.requestFail =
      Except.error "Error retrieving food entries from IndexedDB" ∧
    getFoodEntriesRun [] "u1" none none ReadFailure.openFail = Except.ok [] :=
  ⟨rfl, rfl⟩

/-- C6: offline, `syncWithServer` makes zero network calls (empty pushed
list) and returns the store unchanged in every field. -/
theorem syncAll_offline_noop (push : FoodEntry → PushResult)
    (store : List FoodEntry) :
    syncWithServer false push store = (store, []) := rfl

/-- C7: within one sync pass, `synced` is monotonic: every record stored
with `synced = true` is still stored unchanged afterwards, and every record
of the resulting store is either an original record or an unsynced original
whose push succeeded with only `synced` flipped to `true` — no operation of
the sync engine turns `synced` from `true` back to `false`. -/
theorem syncAll_synced_monotone (online : Bool) (push : FoodEntry → PushResult)
    (store : List FoodEntry) (hnd : (storeIds store).Nodup) :
    (∀ x ∈ store, x.synced = true → x ∈ (syncWithServer online push store).1) ∧
    (∀ y ∈ (syncWithServer online push store).1,
      y ∈ store ∨ ∃ e ∈ store, e.synced = false ∧ push e = PushResult.ok ∧
        y = bumpSynced e) := by
  cases online with
  | false =>
    have h0 : syncWithServer false push store = (store, []) := rfl
    rw [h0]
    exact ⟨fun x hx _ => hx, fun y hy => Or.inl hy⟩
  | true =>
    have hsync : syncWithServer true push store
        = (unsyncedOf store).foldl (syncStep push) (store, []) := rfl
    rw [hsync]
    constructor
    · intro x hx hsx
      refine sync_foldl_preserve push (unsyncedOf store) store [] x hx ?_
      intro e he hid
      have he' := mem_unsyncedOf.1 he
      have : e = x := nodup_id_inj hnd he'.1 hx hid
      rw [this] at he'
      rw [hsx] at he'
      exact absurd he'.2 (by simp)
    · intro y hy
      rcases sync_foldl_cases push (unsyncedOf store) store [] y hy with h | ⟨e, he, hoke, hye⟩
      · exact Or.inl h
      · have he' := mem_unsyncedOf.1 he
        exact Or.inr ⟨e, he'.1, he'.2, hoke, hye⟩

/-- C7 witness: the theorem applied to a concrete store with one synced and
one unsynced record. -/
theorem syncAll_synced_monotone_witness :
    (storeIds [entryA, entryB]).Nodup ∧
    ((∀ x ∈ [entryA, entryB], x.synced = true →
      x ∈ (syncWithServer true pushAllOk [entryA, entryB]).1) ∧
    (∀ y ∈ (syncWithServer true pushAllOk [entryA, entryB]).1,
      y ∈ [entryA, entryB] ∨ ∃ e ∈ [entryA, entryB], e.synced = false ∧
        pushAllOk e = PushResult.ok ∧ y = bumpSynced e)) :=
  ⟨by decide, syncAll_synced_monotone true pushAllOk [entryA, entryB] (by decide)⟩

/-- C8: when the caller's id is absent, the id written into the entry and
resolved on success is `local_` + the decimal digits of `Date.now()` + `_`
+ the base-36 random suffix, and that string matches
`local_<digits>_<alnum>`. -/
theorem saveFoodEntry_generated_id_format (now : Nat) (frac : List Nat)
    (entry : FoodEntry) (store : List FoodEntry)
    (hid : entry.id = "") (hfrac : ∀ d ∈ frac, d < 36) :
    (saveFoodEntry now frac entry store).entryAfter.id = generatedId now frac ∧
    isLocalIdFormat (generatedId now frac) ∧
    (∀ i st', (saveFoodEntry now frac entry store).outcome = Except.ok (i, st') →
      i = generatedId now frac) := by
  refine ⟨?_, generatedId_format hfrac, ?_⟩
  · rw [saveFoodEntry_entryAfter, mutatedEntry_of_no_id hid]
  · intro i st' h
    rw [(saveFoodEntry_ok h).1, mutatedEntry_of_no_id hid]

/-- C8 witness: a concrete insert with no id and random base-36 digits
`[1, 2, 3]`. -/
theorem saveFoodEntry_generated_id_format_witness :
    (sampleEntry.id = "" ∧ ∀ d ∈ [1, 2, 3], d < 36) ∧
    ((saveFoodEntry 5 [1, 2, 3] sampleEntry []).entryAfter.id =
      generatedId 5 [1, 2, 3] ∧
    isLocalIdFormat (generatedId 5 [1, 2, 3]) ∧
    (∀ i st', (saveFoodEntry 5 [1, 2, 3] sampleEntry []).outcome = Except.ok (i, st') →
      i = generatedId 5 [1, 2, 3])) :=
  ⟨⟨rfl, by decide⟩,
    saveFoodEntry_generated_id_format 5 [1, 2, 3] sampleEntry [] rfl (by decide)⟩

/-- C9: supplying only one of the two range bounds applies no date filter:
the result is exactly the no-bounds result, namely all records of the
user. -/
theorem getFoodEntries_single_bound_unfiltered (store : List FoodEntry)
    (uid : String) (s t : Int) :
    getFoodEntries store uid (some s) none = getFoodEntries store uid none none ∧
    getFoodEntries store uid none (some t) = getFoodEntries store uid none none ∧
    getFoodEntries store uid none none = store.filter (fun e => e.userId == uid) :=
  ⟨rfl, rfl, rfl⟩

/-- C10: `saveFoodEntry` mutates the caller's entry object itself — with no
caller-supplied id it writes the generated id and overwrites `synced` with
`false` — and the mutation is the same whatever the store contents, i.e.
it does not depend on the add request's outcome (the source mutates on
lines 51-56, before the request of line 58 settles). -/
theorem saveFoodEntry_mutates_caller_entry (now : Nat) (frac : List Nat)
    (entry : FoodEntry) (store store2 : List FoodEntry)
    (hid : entry.id = "") :
    (saveFoodEntry now frac entry store).entryAfter =
      { entry with id := generatedId now frac, synced := false } ∧
    (saveFoodEntry now frac entry store).entryAfter =
      (saveFoodEntry now frac entry store2).entryAfter := by
  rw [saveFoodEntry_entryAfter, saveFoodEntry_entryAfter,
    mutatedEntry_of_no_id hid]
  exact ⟨rfl, rfl⟩

/-- C10 witness: the mutation observed on a concrete entry, against both the
empty store and a store that makes the add fail. -/
theorem saveFoodEntry_mutates_caller_entry_witness :
    sampleEntry.id = "" ∧
    ((saveFoodEntry 5 [1, 2, 3] sampleEntry []).entryAfter =
      { sampleEntry with id := generatedId 5 [1, 2, 3], synced := false } ∧
    (saveFoodEntry 5 [1, 2, 3] sampleEntry []).entryAfter =
      (saveFoodEntry 5 [1, 2, 3] sampleEntry
        [{ sampleEntry with id := "local_5_123", synced := false }]).entryAfter) :=
  ⟨rfl, saveFoodEntry_mutates_caller_entry 5 [1, 2, 3] sampleEntry []
    [{ sampleEntry with id := "local_5_123", synced := false }] rfl⟩

end EatFit
